import Mathlib

/-
Verification of the go-pagetoken keyset page-token library.

The Go source is shallowly embedded: pure functions become Lean functions,
pointer-mutating methods become state passing, machine integers are `Nat`
with explicit `% 2 ^ 32` at the points where the Go code converts, and
fallible functions return `Option`, `Except` or an explicit outcome type
that also records Go runtime panics (out-of-range slice indexing).
-/

namespace PageToken

/-- Sort direction. In the Go source `type Order bool` with
`OrderAsc Order = true` and `OrderDesc Order = false`; modelled as a
two-constructor inductive. -/
inductive Order where
  | asc
  | desc
deriving DecidableEq, Repr

def OrderAsc : Order := Order.asc

def OrderDesc : Order := Order.desc

/-- The Go method `Order.String`: `"1"` for ascending, everything else
(that is, descending) renders as `"0"`. -/
def Order.toText (o : Order) : String :=
  if o = OrderAsc then "1" else "0"

/-- `ParseOrder`: strict inverse of the textual form. The Go function
returns `(OrderDesc, err)` on any other input; the error case is modelled
as `none`. -/
def ParseOrder (s : String) : Option Order :=
  if s = "1" then some OrderAsc
  else if s = "0" then some OrderDesc
  else none

/-- A single keyset entry: free-form path, sort direction, and the
canonical string encoding of the value (field order as in the Go struct). -/
structure KeysetValue where
  Path : String
  Order : Order
  Value : String
deriving DecidableEq, Repr

/-- `KeysetPayload`: an ordered sequence of keyset values. -/
structure KeysetPayload where
  vs : List KeysetValue
deriving DecidableEq, Repr

/- ### Decimal formatting and parsing (strconv.FormatUint / strconv.ParseUint) -/

/-- The character for a decimal digit. -/
def digitChar (d : Nat) : Char := Char.ofNat (48 + d)

/-- Little-endian decimal digits of `n`, with explicit fuel so that the
definition is structural and evaluates inside the kernel; `digitsAux n n`
computes the digits of `n` (the quotient shrinks at every step, so `n`
itself is always enough fuel). -/
def digitsAux : Nat → Nat → List Nat
  | _, 0 => []
  | 0, _ + 1 => []
  | fuel + 1, n + 1 => ((n + 1) % 10) :: digitsAux fuel ((n + 1) / 10)

/-- `strconv.FormatUint(n, 10)`: decimal text, `"0"` for zero, otherwise
most-significant digit first with no leading zeros. -/
def formatUint (n : Nat) : String :=
  if n = 0 then "0" else String.mk (((digitsAux n n).reverse).map digitChar)

/-- Numeric value of a decimal digit character, `none` for non-digits. -/
def digitVal (c : Char) : Option Nat :=
  if 48 ≤ c.toNat ∧ c.toNat ≤ 57 then some (c.toNat - 48) else none

/-- Left-to-right accumulation of decimal digits. -/
def parseDigits : List Char → Nat → Option Nat
  | [], acc => some acc
  | c :: cs, acc =>
    match digitVal c with
    | none => none
    | some d => parseDigits cs (acc * 10 + d)

/-- `strconv.ParseUint(s, 10, 64)`: a nonempty all-digit string whose value
fits in 64 bits; anything else is an error. -/
def parseUint64 (s : String) : Option Nat :=
  if s.data = [] then none
  else
    match parseDigits s.data 0 with
    | none => none
    | some n => if n < 2 ^ 64 then some n else none

theorem digitsAux_eq_digits (fuel : Nat) :
    ∀ n : Nat, n ≤ fuel → digitsAux fuel n = Nat.digits 10 n := by
  induction fuel with
  | zero =>
    intro n hn
    interval_cases n
    simp [digitsAux]
  | succ f ih =>
    intro n hn
    match n with
    | 0 => simp [digitsAux]
    | m + 1 =>
      have hdiv : (m + 1) / 10 < m + 1 := Nat.div_lt_self (Nat.succ_pos m) (by norm_num)
      rw [digitsAux, ih ((m + 1) / 10) (by omega),
        Nat.digits_def' (by norm_num : 1 < 10) (Nat.succ_pos m)]

theorem digitVal_digitChar (d : Nat) (hd : d < 10) :
    digitVal (digitChar d) = some d := by
  interval_cases d <;> decide

theorem parseDigits_map_digitChar (ds : List Nat) (hd : ∀ d ∈ ds, d < 10) :
    ∀ acc : Nat, parseDigits (ds.map digitChar) acc
      = some (ds.foldl (fun a d => a * 10 + d) acc) := by
  induction ds with
  | nil => intro acc; rfl
  | cons d ds ih =>
    intro acc
    have hd0 : d < 10 := hd d (by simp)
    simp only [List.map_cons, parseDigits, digitVal_digitChar d hd0, List.foldl_cons]
    exact ih (fun x hx => hd x (by simp [hx])) (acc * 10 + d)

theorem foldl_reverse_eq_ofDigits (L : List Nat) :
    ∀ acc : Nat, (L.reverse).foldl (fun a d => a * 10 + d) acc
      = acc * 10 ^ L.length + Nat.ofDigits 10 L := by
  induction L with
  | nil => intro acc; simp
  | cons d L ih =>
    intro acc
    rw [List.reverse_cons, List.foldl_append]
    simp only [List.foldl_cons, List.foldl_nil, ih acc, Nat.ofDigits_cons,
      List.length_cons]
    ring

/-- Round trip: the decimal text of any 64-bit value parses back to it. -/
theorem parseUint64_formatUint (n : Nat) (h : n < 2 ^ 64) :
    parseUint64 (formatUint n) = some n := by
  rcases Nat.eq_zero_or_pos n with h0 | h0
  · subst h0; decide
  · have hne : n ≠ 0 := Nat.pos_iff_ne_zero.mp h0
    have hdig : digitsAux n n = Nat.digits 10 n := digitsAux_eq_digits n n le_rfl
    have hnil : Nat.digits 10 n ≠ [] := Nat.digits_ne_nil_iff_ne_zero.mpr hne
    have hlt : ∀ d ∈ (Nat.digits 10 n).reverse, d < 10 := by
      intro d hdm
      exact Nat.digits_lt_base (by norm_num) (List.mem_reverse.mp hdm)
    rw [formatUint, if_neg hne, hdig]
    have hdata : (String.mk (((Nat.digits 10 n).reverse).map digitChar)).data
        = ((Nat.digits 10 n).reverse).map digitChar := rfl
    rw [parseUint64, hdata]
    have hne2 : ((Nat.digits 10 n).reverse).map digitChar ≠ [] := by
      simp [hnil]
    rw [if_neg hne2, parseDigits_map_digitChar _ hlt 0]
    have hfold : ((Nat.digits 10 n).reverse).foldl (fun a d => a * 10 + d) 0 = n := by
      have := foldl_reverse_eq_ofDigits (Nat.digits 10 n) 0
      simpa [Nat.ofDigits_digits] using this
    rw [hfold]
    norm_num at h
    simp [h]

/- ### Token codec (keyset.go / part_001: KeysetToken, KeysetTokenParser) -/

/-- The error kinds a read/parse can surface. The Go code returns plain
wrapped errors; the kinds here record which return site produced them. -/
inductive ErrKind where
  | decryptError
  | jsonError
  | checksumParseError
  | orderParseError
  | checksumMismatch
deriving DecidableEq, Repr

/-- Result of running a Go function that can return a value, return an
error, or panic at runtime (out-of-range slice indexing). -/
inductive Outcome (α : Type) where
  | ok (a : α)
  | error (k : ErrKind)
  | panics
deriving DecidableEq, Repr

/-- The flat string array built by `KeysetToken.String`:
`[p0, v0, o0, …, p_{N-1}, v_{N-1}, o_{N-1}, decimal(checksum)]`. The Go
loop fills index `i*3 .. i*3+2` from field `i` and appends
`strconv.FormatUint(uint64(checksum), 10)`. -/
def serializeList (vs : List KeysetValue) (checksum : Nat) : List String :=
  (vs.flatMap fun f => [f.Path, f.Value, f.Order.toText]) ++ [formatUint checksum]

/-- The field-decoding loop of `KeysetTokenParser.Parse`:
`for i := 0; i < len(ps)-1; i += 3 { … ParseOrder(ps[i+2]) … }`.
With exactly two strings left the loop condition still holds and the body
reads `ps[i+2]` one past the end of the slice, which panics in Go; with one
or zero strings left the loop stops. -/
def parseTriples : List String → Outcome (List KeysetValue)
  | [] => .ok []
  | [_] => .ok []
  | [_, _] => .panics
  | p :: v :: o :: rest =>
    match ParseOrder o with
    | none => .error .orderParseError
    | some ord =>
      match parseTriples rest with
      | .ok vs => .ok (⟨p, ord, v⟩ :: vs)
      | .error k => .error k
      | .panics => .panics

/-- `KeysetTokenParser.Parse` after decryption and JSON decoding: read the
trailing element `ps[len(ps)-1]` (a panic when the array is empty), parse
it with `strconv.ParseUint(·, 10, 64)`, truncate with `uint32(crc)`, then
decode the field triples. There is no `(len-1) % 3 == 0` length check. -/
def parseStringList (ps : List String) : Outcome (List KeysetValue × Nat) :=
  match ps.getLast? with
  | none => .panics
  | some s =>
    match parseUint64 s with
    | none => .error .checksumParseError
    | some crc =>
      match parseTriples ps with
      | .ok vs => .ok (vs, crc % 2 ^ 32)
      | .error k => .error k
      | .panics => .panics

/-- `encryption.Crypter`: the interface `Encrypt([]byte) (string, error)` /
`Decrypt(string) ([]byte, error)`. The byte-blob type is abstracted as `β`;
a failed decryption is `none`. -/
structure Crypter (β : Type) where
  encrypt : β → String
  decrypt : String → Option β

/-- `KeysetToken`: checksum, crypter capability, payload. The checksum is a
`uint32`, kept as a `Nat` that every assignment site reduces `% 2 ^ 32`. -/
structure KeysetToken (β : Type) where
  checksum : Nat
  e : Crypter β
  payload : KeysetPayload

/-- `KeysetToken.tokenize` composed into `KeysetToken.String`: JSON-encode
the flat string array (the `encoding/json` encoder is the Go standard
library, abstracted as `jsonEnc`) and encrypt the bytes. -/
def KeysetToken.render {β : Type} (jsonEnc : List String → β) (t : KeysetToken β) : String :=
  t.e.encrypt (jsonEnc (serializeList t.payload.vs t.checksum))

/-- Option functions for `KeysetToken.Next`. -/
abbrev KeysetTokenOpt (β : Type) := KeysetToken β → KeysetToken β

/-- `WithKeysetPayload`: substitute the payload of the token under
construction. -/
def WithKeysetPayload {β : Type} (payload : KeysetPayload) : KeysetTokenOpt β :=
  fun c => { c with payload := payload }

/-- `KeysetToken.Next` (part_001 variant): start from a fresh token holding
the source's payload, copy the source's crypter and checksum, then apply
the options. The source token is never written to (the Go method only
assigns fields of `newC`), which the pure embedding renders as `Next`
being a function of the source value. -/
def KeysetToken.Next {β : Type} (c : KeysetToken β) (opts : List (KeysetTokenOpt β)) :
    KeysetToken β :=
  opts.foldl (fun acc opt => opt acc)
    { checksum := c.checksum, e := c.e, payload := c.payload }

/-- `KeysetTokenParser`. -/
structure KeysetTokenParser (β : Type) where
  e : Crypter β

/-- `KeysetTokenParser.Parse`: decrypt, JSON-decode to a string array
(`json.Unmarshal` abstracted as `jsonDec`), then run the structural parse.
The returned token carries the parser's crypter. -/
def KeysetTokenParser.Parse {β : Type} (p : KeysetTokenParser β)
    (jsonDec : β → Option (List String)) (token : String) : Outcome (KeysetToken β) :=
  match p.e.decrypt token with
  | none => .error .decryptError
  | some d =>
    match jsonDec d with
    | none => .error .jsonError
    | some ps =>
      match parseStringList ps with
      | .ok (vs, crc) => .ok ⟨crc, p.e, ⟨vs⟩⟩
      | .error k => .error k
      | .panics => .panics

/- ### Payload builder (part_000) and typed accessors (keyset_payload.go) -/

/-- `KeysetPayloadBuilder`: append-only accumulator; the Go receiver is
mutated in place, modelled as state passing. -/
structure KeysetPayloadBuilder where
  vs : List KeysetValue
deriving DecidableEq, Repr

def NewKeysetPayloadBuilder : KeysetPayloadBuilder := ⟨[]⟩

/-- `KeysetPayloadBuilder.append`: the single internal write path. -/
def KeysetPayloadBuilder.append (b : KeysetPayloadBuilder) (key value : String)
    (order : Order) : KeysetPayloadBuilder :=
  ⟨b.vs ++ [⟨key, order, value⟩]⟩

/-- `KeysetPayloadBuilder.Build`: copies the accumulated slice into a fresh
payload (`make` + `copy` in Go, so later builder writes never reach a
payload built earlier). -/
def KeysetPayloadBuilder.Build (b : KeysetPayloadBuilder) : KeysetPayload :=
  ⟨b.vs⟩

/-- `AddString` stores the string verbatim via `append`. -/
def KeysetPayloadBuilder.AddString (b : KeysetPayloadBuilder) (key value : String)
    (order : Order) : KeysetPayloadBuilder :=
  b.append key value order

/-- `KeysetPayload.value`: first entry whose path matches, otherwise
`ErrFieldNotFound` (modelled as `none`). -/
def KeysetPayload.value (kf : KeysetPayload) (key : String) : Option KeysetValue :=
  kf.vs.find? (fun f => f.Path == key)

/-- Error component of a typed accessor result. -/
inductive GetErr where
  | fieldNotFound
  | decodeError
deriving DecidableEq, Repr

/-- `GetKeysetValue`: look the path up, then decode the stored string. On a
missing path the Go code returns `zero, OrderDesc, err`; on a decode
failure it returns `zero, f.Order, err`. `zero` stands for Go's `var zero
T` and `decodeFn` for the caller-supplied decoder. -/
def GetKeysetValue {T : Type} (zero : T) (kf : KeysetPayload) (key : String)
    (decodeFn : String → Option T) : T × Order × Option GetErr :=
  match kf.value key with
  | none => (zero, OrderDesc, some GetErr.fieldNotFound)
  | some f =>
    match decodeFn f.Value with
    | none => (zero, f.Order, some GetErr.decodeError)
    | some v => (v, f.Order, none)

/- ### Checksum package (part_003): CRC32-IEEE of a JSON string array, masked -/

namespace Checksum

def DefaultChecksumMask : Nat := 0x58AEF322

/-- One shift step of the reflected CRC-32 with the IEEE polynomial
`0xEDB88320` (the bitwise form of `hash/crc32.ChecksumIEEE`). -/
def crc32Step (c : Nat) : Nat :=
  if c % 2 = 1 then (c / 2) ^^^ 0xEDB88320 else c / 2

/-- Fold one byte into the running CRC: xor into the low bits, then eight
shift steps. -/
def crc32Update (crc b : Nat) : Nat :=
  crc32Step (crc32Step (crc32Step (crc32Step
    (crc32Step (crc32Step (crc32Step (crc32Step (crc ^^^ b))))))))

/-- `hash/crc32.ChecksumIEEE`: init `0xFFFFFFFF`, fold every byte, final
complement. -/
def crc32IEEE (data : List Nat) : Nat :=
  (data.foldl crc32Update 0xFFFFFFFF) ^^^ 0xFFFFFFFF

/-- The package-private `checksum` function: CRC32-IEEE xor mask. -/
def checksum (data : List Nat) (mask : Nat) : Nat :=
  crc32IEEE data ^^^ mask

/-- Hex digit byte used in JSON `\uXXXX` escapes (lowercase, as Go writes
them). -/
def hexDigitByte (d : Nat) : Nat := if d < 10 then 48 + d else 87 + d

/-- The six bytes of a JSON `\uXXXX` escape. -/
def uEscape (n : Nat) : List Nat :=
  [92, 117, hexDigitByte (n / 4096 % 16), hexDigitByte (n / 256 % 16),
    hexDigitByte (n / 16 % 16), hexDigitByte (n % 16)]

/-- UTF-8 bytes of one scalar value. -/
def utf8Bytes (c : Char) : List Nat :=
  let n := c.toNat
  if n < 128 then [n]
  else if n < 2048 then [192 + n / 64, 128 + n % 64]
  else if n < 65536 then [224 + n / 4096, 128 + n / 64 % 64, 128 + n % 64]
  else [240 + n / 262144, 128 + n / 4096 % 64, 128 + n / 64 % 64, 128 + n % 64]

/-- Byte encoding of one character inside a JSON string literal, following
Go `encoding/json` with its default HTML escaping: `"` `\` and the three
named control characters get two-byte escapes, the other control
characters plus `<` `>` `&` and U+2028/U+2029 get `\uXXXX`, everything
else is emitted as UTF-8. -/
def jsonEscapeChar (c : Char) : List Nat :=
  if c = Char.ofNat 34 then [92, 34]
  else if c = Char.ofNat 92 then [92, 92]
  else if c = Char.ofNat 10 then [92, 110]
  else if c = Char.ofNat 13 then [92, 114]
  else if c = Char.ofNat 9 then [92, 116]
  else if c.toNat < 32 ∨ c.toNat = 60 ∨ c.toNat = 62 ∨ c.toNat = 38
      ∨ c.toNat = 8232 ∨ c.toNat = 8233 then uEscape c.toNat
  else utf8Bytes c

/-- A JSON string literal: quote, escaped characters, quote. -/
def jsonQuote (s : String) : List Nat :=
  34 :: (s.data.flatMap jsonEscapeChar ++ [34])

/-- `json.Encoder.Encode` of a `[]string`: compact JSON array followed by a
newline (byte `10`), exactly as `json.NewEncoder(buf).Encode(fields)`
writes it. -/
def jsonEncodeStringList (l : List String) : List Nat :=
  match l with
  | [] => [91, 93, 10]
  | x :: xs =>
    91 :: (jsonQuote x ++ (xs.flatMap fun s => 44 :: jsonQuote s) ++ [93, 10])

/-- `checksum.Builder`: a mask and the flat accumulated field list. -/
structure Builder where
  mask : Nat
  fields : List String

/-- `BuilderOpt` mutates the builder; modelled as a function on the
builder value. -/
abbrev BuilderOpt := Builder → Builder

/-- `NewBuilder`: default mask, empty fields, then the options in order. -/
def NewBuilder (opts : List BuilderOpt) : Builder :=
  opts.foldl (fun b opt => opt b) { mask := DefaultChecksumMask, fields := [] }

/-- The `Mask` option; the Go parameter is a `uint32`, hence the `% 2 ^ 32`
at the boundary. -/
def Mask (mask : Nat) : BuilderOpt :=
  fun b => { b with mask := mask % 2 ^ 32 }

/-- The `Field` option: append `key, value` to the flat list. -/
def Field (key value : String) : BuilderOpt :=
  fun b => { b with fields := b.fields ++ [key, value] }

/-- `Builder.Build`: JSON-encode the accumulated list and mask the CRC.
The only Go error path is a write failure of the in-memory buffer, which
cannot occur, so the embedding is total. -/
def Builder.Build (b : Builder) : Nat :=
  checksum (jsonEncodeStringList b.fields) b.mask

end Checksum

/- ### Request reader (part_006 RequestReader, request.go KeysetTokenFromRequest) -/

/-- The `Request` interface: a page token string and the ordered checksum
field options. -/
structure Request where
  pageToken : String
  checksumFields : List Checksum.BuilderOpt

def Request.GetPageToken (r : Request) : String := r.pageToken

def Request.GetChecksumFields (r : Request) : List Checksum.BuilderOpt := r.checksumFields

/-- `RequestReader`: crypter plus the checksum options stored by
`WithChecksumOpts`. -/
structure RequestReader (β : Type) where
  e : Crypter β
  checksumOpts : List Checksum.BuilderOpt

/-- The `WithChecksumOpts` reader option. -/
def WithChecksumOpts {β : Type} (opts : List Checksum.BuilderOpt) :
    RequestReader β → RequestReader β :=
  fun rr => { rr with checksumOpts := opts }

/-- `RequestReader.createChecksumBuilder(opts...)`: forwards its argument
list to `checksum.NewBuilder`. -/
def RequestReader.createChecksumBuilder {β : Type} (_ : RequestReader β)
    (opts : List Checksum.BuilderOpt) : Checksum.Builder :=
  Checksum.NewBuilder opts

/-- `RequestReader.Read`. Both call sites invoke
`r.createChecksumBuilder()` with an empty argument list — `r.checksumOpts`
is never passed — and then apply the request's own checksum field options
to the builder. Empty page token: fresh token with empty payload bound to
the computed checksum. Otherwise: parse, recompute, compare. -/
def RequestReader.Read {β : Type} (r : RequestReader β)
    (jsonDec : β → Option (List String)) (req : Request) : Outcome (KeysetToken β) :=
  if req.GetPageToken = "" then
    let cb := req.GetChecksumFields.foldl (fun b f => f b) (r.createChecksumBuilder [])
    .ok ⟨cb.Build, r.e, ⟨[]⟩⟩
  else
    match (KeysetTokenParser.mk r.e).Parse jsonDec req.GetPageToken with
    | .ok c =>
      let cb := req.GetChecksumFields.foldl (fun b f => f b) (r.createChecksumBuilder [])
      if cb.Build ≠ c.checksum then .error .checksumMismatch else .ok c
    | .error k => .error k
    | .panics => .panics

/- ### Keyset predicate expanders (database/gorm) -/

namespace Gorm

/-- The comparison operators handed to the caller's field callback. -/
inductive KeysetValueOp where
  | eq
  | lt
  | gt
deriving DecidableEq, Repr

/-- Abstract expression tree: the caller's `fieldFn` produces the leaves
and gorm's `clause.And` / `clause.Or` produce the two node kinds. -/
inductive Expr where
  | field (path value : String) (op : KeysetValueOp)
  | and (es : List Expr)
  | or (es : List Expr)

/-- The caller-supplied comparison factory
`fieldFn(field, value, op) (clause.Expression, error)`. -/
abbrev FieldFn := String → String → KeysetValueOp → Except Unit Expr

/-- One OR-branch: equality conjuncts for every already-passed field in
order, then the strict comparison on the current field — `Lt` when its
order is descending, `Gt` otherwise — collected with `clause.And`. -/
def keysetBranch (fieldFn : FieldFn) (eqFields : List KeysetValue)
    (f : KeysetValue) : Except Unit Expr := do
  let eqs ← eqFields.mapM (fun g => fieldFn g.Path g.Value KeysetValueOp.eq)
  let cmp ← if f.Order = OrderDesc then fieldFn f.Path f.Value KeysetValueOp.lt
    else fieldFn f.Path f.Value KeysetValueOp.gt
  pure (Expr.and (eqs ++ [cmp]))

/-- The branch loop of `KeysetValuesExpr` (dao_builder.go):
`for i := 0; i < len(fields); i++` with inner `for j := 0; j < i; j++`;
`done` carries the fields already passed (`fields[0..i)`). -/
def keysetValuesAux (fieldFn : FieldFn) (done : List KeysetValue) :
    List KeysetValue → Except Unit (List Expr)
  | [] => pure []
  | f :: rest => do
    let b ← keysetBranch fieldFn done f
    let more ← keysetValuesAux fieldFn (done ++ [f]) rest
    pure (b :: more)

/-- `gorm.KeysetValuesExpr` (dao_builder.go): one OR-branch per field. -/
def KeysetValuesExpr (fieldFn : FieldFn) (fields : List KeysetValue) :
    Except Unit Expr := do
  let branches ← keysetValuesAux fieldFn [] fields
  pure (Expr.or branches)

/-- `gorm.KeysetTokenCond` (builder.go), acting on `token.Fields()`:
`for i := 0; i < len(fs)-1; i++` with inner `for j := 0; j < i-1; j++`
(both bounds in Go `int` arithmetic, so `i-1` is `-1` at `i = 0`, matching
truncated subtraction on `Nat` here: no inner iterations). -/
def KeysetTokenCond (fieldFn : FieldFn) (fs : List KeysetValue) :
    Except Unit Expr := do
  let branches ← (List.range (fs.length - 1)).mapM
    (fun i => keysetBranch fieldFn (fs.take (i - 1)) (fs.getD i ⟨"", OrderDesc, ""⟩))
  pure (Expr.or branches)

end Gorm

/- ### Round-trip lemmas for the token codec -/

theorem parseOrder_toText (o : Order) : ParseOrder o.toText = some o := by
  cases o <;> rfl

theorem parseTriples_flat (P : List KeysetValue) (s : String) :
    parseTriples ((P.flatMap fun f => [f.Path, f.Value, f.Order.toText]) ++ [s])
      = Outcome.ok P := by
  induction P with
  | nil => rfl
  | cons f P ih =>
    simp only [List.flatMap_cons, List.append_assoc, List.cons_append, List.nil_append]
    rw [parseTriples, parseOrder_toText f.Order, ih]

/-- Core round trip: the structural parse inverts the flat-array
serialization for every payload and every 32-bit checksum. -/
theorem parseStringList_serializeList (P : List KeysetValue) (c : Nat)
    (hc : c < 2 ^ 32) :
    parseStringList (serializeList P c) = Outcome.ok (P, c) := by
  have hlast : (serializeList P c).getLast? = some (formatUint c) := by
    rw [serializeList]
    exact List.getLast?_concat _
  have hparse : parseUint64 (formatUint c) = some c :=
    parseUint64_formatUint c (lt_trans hc (by norm_num))
  rw [parseStringList, hlast]
  simp only [hparse, serializeList, parseTriples_flat P, Nat.mod_eq_of_lt hc]

/- ### Concrete crypters used by closed theorems -/

/-- A crypter whose decrypt always yields the given byte blob; used to
drive `Parse` with a chosen decrypted content. -/
def constCrypter (out : List String) : Crypter (List String) :=
  ⟨fun _ => "token", fun _ => some out⟩

/- ### Claim theorems -/

/-- C1: serializing a keyset token holding payload `P` and 32-bit checksum
`c` via `KeysetToken.String` (here `render`, with the JSON layer
abstracted) and parsing the result with `KeysetTokenParser.Parse` under
the same crypter — assumed to invert the encryption at this blob — yields
a token with the same payload value sequence and the same checksum. -/
theorem keysetToken_roundtrip {β : Type} (e : Crypter β)
    (jsonEnc : List String → β) (jsonDec : β → Option (List String))
    (P : List KeysetValue) (c : Nat) (hc : c < 2 ^ 32)
    (hcrypt : e.decrypt (e.encrypt (jsonEnc (serializeList P c)))
      = some (jsonEnc (serializeList P c)))
    (hjson : jsonDec (jsonEnc (serializeList P c)) = some (serializeList P c)) :
    (KeysetTokenParser.mk e).Parse jsonDec
        (KeysetToken.render jsonEnc ⟨c, e, ⟨P⟩⟩)
      = Outcome.ok ⟨c, e, ⟨P⟩⟩ := by
  unfold KeysetToken.render KeysetTokenParser.Parse
  simp only [hcrypt, hjson, parseStringList_serializeList P c hc]

def c1Crypter : Crypter (List String) := constCrypter ["id", "42", "1", "7"]

set_option maxRecDepth 100000 in
/-- Witness for C1: the round trip evaluated at payload
`[("id","42",Asc)]` and checksum `7`. -/
theorem keysetToken_roundtrip_witness :
    (7 : Nat) < 2 ^ 32
    ∧ (KeysetTokenParser.mk c1Crypter).Parse some
        (KeysetToken.render id ⟨7, c1Crypter, ⟨[⟨"id", Order.asc, "42"⟩]⟩⟩)
      = Outcome.ok ⟨7, c1Crypter, ⟨[⟨"id", Order.asc, "42"⟩]⟩⟩ :=
  ⟨by decide, keysetToken_roundtrip c1Crypter id some [⟨"id", Order.asc, "42"⟩] 7
    (by decide) (by decide) (by decide)⟩

def c2Reader : RequestReader (List String) :=
  { e := constCrypter [], checksumOpts := [Checksum.Mask 0] }

def c2Request : Request := { pageToken := "", checksumFields := [] }

set_option maxRecDepth 100000 in
/-- C2 refutation: a reader configured via `WithChecksumOpts` with a
non-empty option list (`Mask 0`) still computes the fresh token's checksum
from the default-mask builder — `Read` never passes `r.checksumOpts` to
`createChecksumBuilder` — so the result differs from the checksum the
configured options would produce. -/
theorem requestReader_read_ignores_checksumOpts :
    (WithChecksumOpts [Checksum.Mask 0] { e := constCrypter [], checksumOpts := [] }
      = c2Reader)
    ∧ (c2Reader.Read some c2Request = Outcome.ok ⟨0x28C62166, c2Reader.e, ⟨[]⟩⟩)
    ∧ (Checksum.NewBuilder c2Reader.checksumOpts).Build = 0x7068D244
    ∧ (0x28C62166 : Nat) ≠ 0x7068D244 :=
  ⟨rfl, rfl, by decide, by decide⟩

def c3Crypter : Crypter (List String) := constCrypter ["a", "b", "1"]

set_option maxRecDepth 100000 in
/-- C3 refutation: a token whose decrypted content decodes to the 3-element
string array `["a","b","1"]` has `(3-1) % 3 ≠ 0`, yet `Parse` returns a
token (consuming the trailing checksum element as an order digit), and on
the empty array the parse panics (`ps[len(ps)-1]` out of range) — there is
no `MalformedToken` length check. -/
theorem parse_no_length_check :
    ((3 - 1) % 3 ≠ 0)
    ∧ ((KeysetTokenParser.mk c3Crypter).Parse some "tok"
      = Outcome.ok ⟨1, c3Crypter, ⟨[⟨"a", Order.asc, "b"⟩]⟩⟩)
    ∧ parseStringList [] = Outcome.panics :=
  ⟨by decide, rfl, rfl⟩

def c4Crypter : Crypter (List String) := constCrypter ["4294967296"]

set_option maxRecDepth 100000 in
/-- C4 refutation: the trailing element `"4294967296"` (which equals
`2 ^ 32` and therefore overflows `uint32`) is accepted — it is parsed with
a 64-bit `ParseUint` and then silently truncated by `uint32(crc)` to `0` —
instead of producing a `MalformedToken` error. -/
theorem parse_truncates_checksum_overflow :
    ((4294967296 : Nat) = 2 ^ 32)
    ∧ ((KeysetTokenParser.mk c4Crypter).Parse some "tok"
      = Outcome.ok ⟨0, c4Crypter, ⟨[]⟩⟩) :=
  ⟨by decide, rfl⟩

def specFieldFn : Gorm.FieldFn :=
  fun p v op => Except.ok (Gorm.Expr.field p v op)

def c5Fields : List KeysetValue :=
  [⟨"score", Order.desc, "80"⟩, ⟨"id", Order.asc, "42"⟩]

/-- C5: on the two-field payload `[(score,80,Desc),(id,42,Asc)]` the
dao_builder.go expander `KeysetValuesExpr` emits the mandated two
OR-branches — `(score < 80)` and `(score = 80 AND id > 42)` — but the
builder.go expander `KeysetTokenCond` (loop bounds `i < len(fs)-1`,
`j < i-1`) emits only one branch, dropping the last field's branch and its
equality conjunct. -/
theorem keysetTokenCond_shape_mismatch :
    (Gorm.KeysetValuesExpr specFieldFn c5Fields
      = Except.ok (Gorm.Expr.or
          [Gorm.Expr.and [Gorm.Expr.field "score" "80" Gorm.KeysetValueOp.lt],
            Gorm.Expr.and [Gorm.Expr.field "score" "80" Gorm.KeysetValueOp.eq,
              Gorm.Expr.field "id" "42" Gorm.KeysetValueOp.gt]]))
    ∧ (Gorm.KeysetTokenCond specFieldFn c5Fields
      = Except.ok (Gorm.Expr.or
          [Gorm.Expr.and [Gorm.Expr.field "score" "80" Gorm.KeysetValueOp.lt]])) :=
  ⟨rfl, rfl⟩

set_option maxRecDepth 100000 in
/-- C6: `Builder.Build` is CRC32-IEEE of the JSON array-of-strings
serialization of the accumulated field list, XORed with the builder's
mask; the mask defaults to `0x58AEF322` and is overridden by the `Mask`
option; an empty field list builds the CRC of the empty-array
serialization (`"[]\n"`) XOR the mask, concretely `0x28C62166`. Build is a
plain function of the field list and mask, hence deterministic. -/
theorem checksum_builder_build_spec :
    (∀ b : Checksum.Builder,
      b.Build = Checksum.crc32IEEE (Checksum.jsonEncodeStringList b.fields) ^^^ b.mask)
    ∧ (Checksum.NewBuilder []).mask = 0x58AEF322
    ∧ (∀ m : Nat, (Checksum.NewBuilder [Checksum.Mask m]).mask = m % 2 ^ 32)
    ∧ (Checksum.NewBuilder []).Build
        = Checksum.crc32IEEE (Checksum.jsonEncodeStringList []) ^^^ 0x58AEF322
    ∧ (Checksum.NewBuilder []).Build = 0x28C62166 :=
  ⟨fun _ => rfl, rfl, fun _ => rfl, rfl, by decide⟩

/-- C7: on a request whose page-token string is empty, `Read` returns —
with no error — a token whose payload holds no values and whose checksum
is freshly computed by folding the request's checksum field options over a
new default builder. -/
theorem read_empty_pageToken {β : Type} (r : RequestReader β)
    (jsonDec : β → Option (List String)) (req : Request)
    (h : req.GetPageToken = "") :
    r.Read jsonDec req = Outcome.ok
      ⟨(req.GetChecksumFields.foldl (fun b f => f b) (Checksum.NewBuilder [])).Build,
        r.e, ⟨[]⟩⟩ := by
  rw [RequestReader.Read, if_pos h]
  rfl

def c7Reader : RequestReader (List String) :=
  { e := constCrypter [], checksumOpts := [] }

def c7Request : Request :=
  { pageToken := "", checksumFields := [Checksum.Field "status" "active"] }

/-- Witness for C7 at a concrete empty-token request with one checksum
field. -/
theorem read_empty_pageToken_witness :
    c7Request.GetPageToken = ""
    ∧ c7Reader.Read some c7Request = Outcome.ok
      ⟨(c7Request.GetChecksumFields.foldl (fun b f => f b)
          (Checksum.NewBuilder [])).Build, c7Reader.e, ⟨[]⟩⟩ :=
  ⟨rfl, read_empty_pageToken c7Reader some c7Request rfl⟩

/-- C8: `Next` with a caller-supplied payload yields a token carrying
exactly the source's checksum and crypter (never recomputed) and the new
payload. The Go method writes only the fresh token, which the pure
embedding reflects by `Next` being a function of the unchanged source
value. -/
theorem next_inherits_checksum_and_crypter {β : Type} (t : KeysetToken β)
    (p : KeysetPayload) :
    (t.Next [WithKeysetPayload p]).checksum = t.checksum
    ∧ (t.Next [WithKeysetPayload p]).e = t.e
    ∧ (t.Next [WithKeysetPayload p]).payload = p :=
  ⟨rfl, rfl, rfl⟩

/-- C9: a payload obtained from `Build` is a pure value holding the
builder's entries at build time (the Go code copies the slice), so a later
`append` cannot alter it, and building after exactly one more `append`
yields a payload with exactly one more value. -/
theorem payloadBuilder_isolation (b : KeysetPayloadBuilder) (key value : String)
    (o : Order) :
    (KeysetPayloadBuilder.Build b).vs = b.vs
    ∧ ((b.append key value o).Build).vs
        = (KeysetPayloadBuilder.Build b).vs ++ [⟨key, o, value⟩]
    ∧ ((b.append key value o).Build).vs.length
        = (KeysetPayloadBuilder.Build b).vs.length + 1 :=
  ⟨rfl, rfl, by
    simp [KeysetPayloadBuilder.Build, KeysetPayloadBuilder.append]⟩

/-- C10: when no payload entry matches the requested path,
`GetKeysetValue` returns the zero value, the order `OrderDesc` (the Go
code returns the literal `OrderDesc` in this branch, whatever the
payload holds), and the field-not-found error. -/
theorem getKeysetValue_not_found {T : Type} (zero : T) (kf : KeysetPayload)
    (key : String) (decodeFn : String → Option T)
    (h : ∀ f ∈ kf.vs, f.Path ≠ key) :
    GetKeysetValue zero kf key decodeFn
      = (zero, OrderDesc, some GetErr.fieldNotFound) := by
  have hfind : kf.vs.find? (fun f => f.Path == key) = none := by
    rw [List.find?_eq_none]
    intro f hf
    simpa using h f hf
  unfold GetKeysetValue KeysetPayload.value
  rw [hfind]

def c10Payload : KeysetPayload := ⟨[⟨"a", Order.asc, "1"⟩]⟩

/-- Witness for C10: looking up the absent path `"b"` in a one-entry
payload whose single entry is ascending. -/
theorem getKeysetValue_not_found_witness :
    (∀ f ∈ c10Payload.vs, f.Path ≠ "b")
    ∧ GetKeysetValue (0 : Nat) c10Payload "b" (fun _ => none)
      = (0, OrderDesc, some GetErr.fieldNotFound) :=
  ⟨by decide, getKeysetValue_not_found 0 c10Payload "b" (fun _ => none) (by decide)⟩

end PageToken
